import Mathlib

/-!
Verification of the mirrord traffic-stealing engine against its
natural-language specification.

The definitions below are a shallow embedding of the Rust sources:

- `mirrord/agent/src/steal/connection.rs` (the `TcpConnectionStealer`
  worker: its state and command handlers) — embedded as `StealerState`
  and the functions `port_subscribe`, `port_unsubscribe`, `close_client`,
  `incoming_connection`, `forward_data`, `connection_unsubscribe`,
  `new_client`, `handle_command`, `step`, `run`;
- `mirrord/protocol/src/tcp.rs` (wire message types) — embedded as
  `InternalHttpRequest`, `HttpRequest`, `HttpResponse`, `DaemonTcp`, ...;
- `mirrord/agent/src/steal/http_traffic/filter.rs` and
  `hyper_handler.rs` (HTTP probe and per-request filter decision);
- helper components whose sources are not part of the reviewed tree
  (`Subscriptions`, `SafeIpTables`, `IndexAllocator`, the response
  ordering queue) are modelled from the specification, as marked in
  their doc comments.

Machine integers (ports, ids) are modelled as `Nat`; byte buffers as
`List Nat`; channels as accumulated message lists; fallible operations
return `Except AgentError`.
-/

namespace MirrordSteal

/-- Source `Port`: 16-bit TCP port (`mirrord/protocol`). Modelled as `Nat`. -/
abbrev Port := Nat

/-- Source `ClientId`: opaque dense integer identifying a connected layer. -/
abbrev ClientId := Nat

/-- Source `ConnectionId`: opaque dense integer identifying an intercepted TCP
connection. -/
abbrev ConnectionId := Nat

/-- Source `RequestId`: per-connection counter ordering HTTP responses. -/
abbrev RequestId := Nat

/-- Byte buffers (`Vec<u8>` / `Bytes`) are lists of naturals. -/
abbrev Bytes := List Nat

/- ### Association-list helpers

The Rust worker keeps its per-client and per-connection state in
`HashMap`s. We embed those maps as association lists with `Nat` keys,
with explicit recursive operations so that every lemma is under our
control. -/

/-- Lookup in an association list, first entry wins (models
`HashMap::get`). -/
def lookupA {β : Type} : List (Nat × β) → Nat → Option β
  | [], _ => none
  | e :: rest, k => if e.1 = k then some e.2 else lookupA rest k

/-- Remove every entry with the given key (models `HashMap::remove`;
keys are unique in all states the worker builds). -/
def removeA {β : Type} (m : List (Nat × β)) (k : Nat) : List (Nat × β) :=
  m.filter (fun e => decide (e.1 ≠ k))

/-- Replace the value stored under `k` when present, keeping order;
append a fresh entry otherwise (models `HashMap::insert`). -/
def setA {β : Type} : List (Nat × β) → Nat → β → List (Nat × β)
  | [], k, v => [(k, v)]
  | e :: rest, k, v =>
    if e.1 = k then (k, v) :: rest else e :: setA rest k v

/- ### Protocol messages (`mirrord/protocol/src/tcp.rs`) -/

/-- Source `ResponseError` — only the variant relevant to stealing. -/
inductive ResponseError
  | portAlreadyStolen (port : Port)
  deriving DecidableEq, Repr

/-- Source `RemoteResult<Port>` carried by `DaemonTcp::SubscribeResult`. -/
inductive RemoteResult
  | ok (port : Port)
  | err (e : ResponseError)
  deriving DecidableEq, Repr

/-- Source `NewTcpConnection` struct, fields in declaration order from
`tcp.rs`: `connection_id`, `address`, `destination_port`,
`source_port`. The IP address is abstracted to a `Nat`. -/
structure NewTcpConnection where
  connection_id : ConnectionId
  address : Nat
  destination_port : Port
  source_port : Port
  deriving DecidableEq, Repr

/-- Source `TcpData` struct from `tcp.rs`. -/
structure TcpData where
  connection_id : ConnectionId
  bytes : Bytes
  deriving DecidableEq, Repr

/-- Source `TcpClose` struct from `tcp.rs`. -/
structure TcpClose where
  connection_id : ConnectionId
  deriving DecidableEq, Repr

/-- Source `InternalHttpRequest` from `tcp.rs`, fields in declaration order:
`method`, `uri`, `headers`, `version`, `body`. `Method`, `Uri` and
`Version` are abstracted to their canonical textual forms. -/
structure InternalHttpRequest where
  method : String
  uri : String
  headers : List (String × String)
  version : String
  body : Bytes
  deriving DecidableEq, Repr

/-- Source `HttpRequest` from `tcp.rs`, fields in declaration order:
`request` (an `InternalHttpRequest`), `connection_id`, `port`. -/
structure HttpRequest where
  request : InternalHttpRequest
  connection_id : ConnectionId
  port : Port
  deriving DecidableEq, Repr

/-- Source `InternalHttpResponse` from `tcp.rs`, fields in declaration order:
`status`, `version`, `headers`, `body`. Declared in the source but not
referenced by any other type there. -/
structure InternalHttpResponse where
  status : Nat
  version : String
  headers : List (String × String)
  body : Bytes
  deriving DecidableEq, Repr

/-- Source `HttpResponse` from `tcp.rs`, fields in declaration order:
`request_id`, `connection_id`, `port`, `request` — the last field has
type `InternalHttpRequest` in the source. -/
structure HttpResponse where
  request_id : RequestId
  connection_id : ConnectionId
  port : Port
  request : InternalHttpRequest
  deriving DecidableEq, Repr

/-- Source `DaemonTcp` — messages from the stealer worker back to a layer
client, from `tcp.rs`. -/
inductive DaemonTcp
  | newConnection (c : NewTcpConnection)
  | data (d : TcpData)
  | close (c : TcpClose)
  | subscribeResult (r : RemoteResult)
  | httpRequest (r : HttpRequest)
  deriving DecidableEq, Repr

/- ### Components modelled from the spec (sources not in the tree) -/

/-- Modelled from the spec: `SafeIpTables` (`steal/ip_tables.rs`, not
in the reviewed tree). Spec section 4.1/6: a dedicated nat chain holding
per-port REDIRECT rules; `add_redirect(port, to_port)` installs a rule,
`remove_redirect(port, to_port)` removes it. We model the chain as the
multiset of its `(port, to_port)` rules. -/
structure SafeIpTables where
  rules : List (Port × Port)
  deriving DecidableEq, Repr

/-- A fresh guard: the chain is created empty. -/
def SafeIpTables.new : SafeIpTables := ⟨[]⟩

/-- Source `add_redirect` appends the rule to the chain. -/
def SafeIpTables.add_redirect (t : SafeIpTables) (port to_port : Port) :
    SafeIpTables :=
  ⟨t.rules ++ [(port, to_port)]⟩

/-- Source `remove_redirect` deletes one occurrence of the rule. -/
def SafeIpTables.remove_redirect (t : SafeIpTables) (port to_port : Port) :
    SafeIpTables :=
  ⟨t.rules.erase (port, to_port)⟩

/-- Number of REDIRECT rules installed for a given port. -/
def SafeIpTables.rulesFor (t : SafeIpTables) (port : Port) : Nat :=
  (t.rules.filter (fun r => decide (r.1 = port))).length

/-- Modelled from the spec: `Subscriptions<Port, ClientId>`
(`agent/src/util.rs`, not in the reviewed tree). Spec section 3/4.2: a
bidirectional topic-client index; subscribers of a port are kept in
insertion order and the first (oldest) subscriber is the default
recipient. We keep the flat list of `(port, client)` pairs in
subscription order. -/
structure Subscriptions where
  inner : List (Port × ClientId)
  deriving DecidableEq, Repr

def Subscriptions.new : Subscriptions := ⟨[]⟩

/-- Source `subscribe(client, topic)`: set semantics, insertion order kept. -/
def Subscriptions.subscribe (s : Subscriptions) (c : ClientId) (p : Port) :
    Subscriptions :=
  if (p, c) ∈ s.inner then s else ⟨s.inner ++ [(p, c)]⟩

/-- Source `unsubscribe(client, topic)`: removes the pair when present. -/
def Subscriptions.unsubscribe (s : Subscriptions) (c : ClientId) (p : Port) :
    Subscriptions :=
  ⟨s.inner.erase (p, c)⟩

/-- Source `remove_client(client)`: drops all of the client's subscriptions. -/
def Subscriptions.remove_client (s : Subscriptions) (c : ClientId) :
    Subscriptions :=
  ⟨s.inner.filter (fun e => decide (e.2 ≠ c))⟩

/-- Source `get_topic_subscribers(topic)`: subscribers in insertion order. -/
def Subscriptions.get_topic_subscribers (s : Subscriptions) (p : Port) :
    List ClientId :=
  (s.inner.filter (fun e => decide (e.1 = p))).map Prod.snd

/-- Source `get_client_topics(client)`: the client's ports. -/
def Subscriptions.get_client_topics (s : Subscriptions) (c : ClientId) :
    List Port :=
  (s.inner.filter (fun e => decide (e.2 = c))).map Prod.fst

/-- Source `is_empty`. -/
def Subscriptions.is_empty (s : Subscriptions) : Bool :=
  s.inner.isEmpty

/-- Modelled from the spec: `IndexAllocator` (`agent/src/util.rs`, not
in the reviewed tree). Spec section 2: monotonic connection-id
allocation with reuse of freed ids. -/
structure IndexAllocator where
  next_i : Nat
  freed : List Nat
  deriving DecidableEq, Repr

def IndexAllocator.new : IndexAllocator := ⟨0, []⟩

/-- Source `next_index`: hand out a freed id when one exists, else the next
fresh one. The Rust signature returns `Option`; it is always `Some`
here, matching the worker's `unwrap`. -/
def IndexAllocator.next_index (a : IndexAllocator) : Nat × IndexAllocator :=
  match a.freed with
  | f :: rest => (f, ⟨a.next_i, rest⟩)
  | [] => (a.next_i, ⟨a.next_i + 1, a.freed⟩)

/- ### The stealer worker (`agent/src/steal/connection.rs`) -/

/-- Source `AgentError` — the variants the stealer loop can produce. -/
inductive AgentError
  | unexpectedConnection (port : Port)
  | agentInvariantViolated
  deriving DecidableEq, Repr

/-- Source `StealerCommand` (`steal/api.rs`) — the sink argument of
`NewClient` is implied by the command's `client_id`. -/
inductive StealerCommand
  | newClient
  | portSubscribe (port : Port)
  | portUnsubscribe (port : Port)
  | clientClose
  | connectionUnsubscribe (connection_id : ConnectionId)
  | responseData (tcp_data : TcpData)
  deriving DecidableEq, Repr

/-- Source `ClientCommand` (`tcp_api.rs`): a command tagged with the id of the
client that sent it. -/
structure ClientCommand where
  client_id : ClientId
  command : StealerCommand
  deriving DecidableEq, Repr

/-- The `TcpConnectionStealer` state from `connection.rs`. Client
response channels are modelled as the list of `DaemonTcp` messages sent
on them so far; write halves as the bytes written so far; read halves
by their presence. `stealer_port` stands for
`self.stealer.local_addr().port()`, constant for the worker's life. -/
structure StealerState where
  port_subscriptions : Subscriptions
  clients : List (ClientId × List DaemonTcp)
  index_allocator : IndexAllocator
  stealer_port : Port
  iptables : Option SafeIpTables
  write_streams : List (ConnectionId × Bytes)
  read_streams : List ConnectionId
  client_connections : List (ConnectionId × ClientId)
  deriving DecidableEq, Repr

/-- Source `TcpConnectionStealer::new`: everything empty, no iptables guard. -/
def StealerState.initial (stealer_port : Port) : StealerState where
  port_subscriptions := Subscriptions.new
  clients := []
  index_allocator := IndexAllocator.new
  stealer_port := stealer_port
  iptables := none
  write_streams := []
  read_streams := []
  client_connections := []

/-- Source `send_message_to_single_client`: append the message on the client's
channel when the client is registered; silently do nothing otherwise.
(The model's channel sends always succeed, so the send-failure branch
that closes the client is never taken.) -/
def send_message_to_single_client (clients : List (ClientId × List DaemonTcp))
    (client_id : ClientId) (message : DaemonTcp) :
    List (ClientId × List DaemonTcp) :=
  clients.map (fun e => if e.1 = client_id then (e.1, e.2 ++ [message]) else e)

/-- Source `TcpConnectionStealer::new_client`: record the client's sink
(a fresh, empty channel). -/
def new_client (s : StealerState) (client_id : ClientId) : StealerState :=
  { s with clients := setA s.clients client_id [] }

/-- Source `TcpConnectionStealer::port_subscribe`: reject with
`PortAlreadyStolen` when the port already has a subscriber; otherwise
initialize the iptables guard if this is the first subscription
overall, record the subscription, and install the port's redirect rule.
Either way the `SubscribeResult` is sent to the requesting client. -/
def port_subscribe (s : StealerState) (client_id : ClientId) (port : Port) :
    Except AgentError StealerState :=
  match (s.port_subscriptions.get_topic_subscribers port).head? with
  | some _ =>
    .ok { s with
          clients := send_message_to_single_client s.clients client_id
            (.subscribeResult (.err (.portAlreadyStolen port))) }
  | none =>
    let s1 : StealerState :=
      if s.port_subscriptions.is_empty then
        { s with iptables := some SafeIpTables.new }
      else s
    let s2 : StealerState :=
      { s1 with port_subscriptions := s1.port_subscriptions.subscribe client_id port }
    match s2.iptables with
    | none => .error .agentInvariantViolated
    | some t =>
      .ok { s2 with
            iptables := some (t.add_redirect port s.stealer_port),
            clients := send_message_to_single_client s2.clients client_id
              (.subscribeResult (.ok port)) }

/-- Source `TcpConnectionStealer::port_unsubscribe`: remove the port's
redirect rule when this client was subscribed to it, drop the
subscription, and drop the whole iptables guard when the last
subscription overall is gone. -/
def port_unsubscribe (s : StealerState) (client_id : ClientId) (port : Port) :
    Except AgentError StealerState :=
  match
    (if (s.port_subscriptions.get_client_topics client_id).contains port then
      match s.iptables with
      | none => Except.error AgentError.agentInvariantViolated
      | some t => Except.ok (some (t.remove_redirect port s.stealer_port))
    else Except.ok s.iptables : Except AgentError (Option SafeIpTables)) with
  | .error e => .error e
  | .ok ipt =>
    let subs := s.port_subscriptions.unsubscribe client_id port
    .ok { s with
          port_subscriptions := subs,
          iptables := if subs.is_empty then none else ipt }

/-- The `try_for_each` of `close_client`: remove the redirect rule of
every given port, failing like `iptables()?` does when the guard is
absent and at least one port remains. -/
def removeRedirects (ipt : Option SafeIpTables) (stealer_port : Port) :
    List Port → Except AgentError (Option SafeIpTables)
  | [] => .ok ipt
  | p :: rest =>
    match ipt with
    | none => .error .agentInvariantViolated
    | some t => removeRedirects (some (t.remove_redirect p stealer_port)) stealer_port rest

/-- Source `TcpConnectionStealer::close_client`: remove the redirect rules of
every port the client is subscribed to, drop all its subscriptions, and
drop its response channel. (Note: the iptables guard itself and the
per-connection stream maps are left untouched by the source.) -/
def close_client (s : StealerState) (client_id : ClientId) :
    Except AgentError StealerState :=
  match removeRedirects s.iptables s.stealer_port
    (s.port_subscriptions.get_client_topics client_id) with
  | .error e => .error e
  | .ok ipt =>
    .ok { s with
          iptables := ipt,
          port_subscriptions := s.port_subscriptions.remove_client client_id,
          clients := removeA s.clients client_id }

/-- Source `TcpConnectionStealer::forward_data`: write the bytes to the write
half stored under the connection id; warn and drop when there is no
such connection. -/
def forward_data (s : StealerState) (tcp_data : TcpData) : StealerState :=
  match lookupA s.write_streams tcp_data.connection_id with
  | some written =>
    { s with
      write_streams := setA s.write_streams tcp_data.connection_id
        (written ++ tcp_data.bytes) }
  | none => s

/-- Source `TcpConnectionStealer::connection_unsubscribe`: drop both halves of
the stored stream. (The source leaves `client_connections` as is.) -/
def connection_unsubscribe (s : StealerState) (connection_id : ConnectionId) :
    StealerState :=
  { s with
    write_streams := removeA s.write_streams connection_id,
    read_streams := s.read_streams.filter (fun c => decide (c ≠ connection_id)) }

/-- Source `TcpConnectionStealer::incoming_connection`: recover the original
destination; hand the connection to the first subscriber of the
original port, allocating a connection id and registering both stream
halves; error with `UnexpectedConnection` when the port has no
subscriber. -/
def incoming_connection (s : StealerState) (address source_port real_port : Nat) :
    Except AgentError StealerState :=
  match (s.port_subscriptions.get_topic_subscribers real_port).head? with
  | some client_id =>
    let alloc := s.index_allocator.next_index
    let connection_id := alloc.1
    let s1 : StealerState :=
      { s with
        index_allocator := alloc.2,
        write_streams := setA s.write_streams connection_id [],
        read_streams := s.read_streams ++ [connection_id],
        client_connections := setA s.client_connections connection_id client_id }
    let message := DaemonTcp.newConnection
      { connection_id := connection_id
        address := address
        destination_port := real_port
        source_port := source_port }
    match lookupA s1.clients client_id with
    | some _ =>
      .ok { s1 with
            clients := send_message_to_single_client s1.clients client_id message }
    | none => close_client s1 client_id
  | none => .error (.unexpectedConnection real_port)

/-- Source `TcpConnectionStealer::handle_command`: dispatch on the command. -/
def handle_command (s : StealerState) (cc : ClientCommand) :
    Except AgentError StealerState :=
  match cc.command with
  | .newClient => .ok (new_client s cc.client_id)
  | .connectionUnsubscribe connection_id =>
    .ok (connection_unsubscribe s connection_id)
  | .portSubscribe port => port_subscribe s cc.client_id port
  | .portUnsubscribe port => port_unsubscribe s cc.client_id port
  | .clientClose => close_client s cc.client_id
  | .responseData tcp_data => .ok (forward_data s tcp_data)

/-- An event of the worker's main select loop: either a client command
or an accepted connection (with its peer address/port and the recovered
original destination port). -/
inductive StealEvent
  | command (cc : ClientCommand)
  | accept (address source_port real_port : Nat)
  deriving DecidableEq, Repr

/-- One iteration of the `start` select loop. -/
def step (s : StealerState) : StealEvent → Except AgentError StealerState
  | .command cc => handle_command s cc
  | .accept address source_port real_port =>
    incoming_connection s address source_port real_port

/-- The `start` loop over a finite event trace: an error from any
branch propagates (the `?` operator) and the loop processes no further
event. -/
def run (s : StealerState) : List StealEvent → Except AgentError StealerState
  | [] => .ok s
  | e :: rest =>
    match step s e with
    | .ok s1 => run s1 rest
    | .error err => .error err

/- ### HTTP version probe
(`steal/http_traffic/filter.rs`, `HttpFilterBuilder::new`) -/

/-- The HTTP/2 client preface bytes of `H2_PREFACE`
(the string `PRI * HTTP/2.0`, 14 bytes). -/
def h2Preface : Bytes :=
  [0x50, 0x52, 0x49, 0x20, 0x2a, 0x20, 0x48, 0x54, 0x54, 0x50, 0x2f, 0x32, 0x2e, 0x30]

/-- Rust slicing `&l[..n]`: in-bounds slices produce the prefix, an
out-of-bounds end index panics (modelled as `none`). -/
def sliceTo (l : Bytes) (n : Nat) : Option Bytes :=
  if n ≤ l.length then some (l.take n) else none

/-- Classification produced by the probe. -/
inductive HttpVersion
  | V1
  | V2
  | NotHttp
  deriving DecidableEq, Repr

/-- Modelled from the spec: the three-variant `HttpVersion::new` used by
`filter.rs` (its module file is not in the reviewed tree; the
two-variant analogue in `http_traffic.rs` has the same shape). Spec
section 4.4: `V2` iff the buffer equals the byte-for-byte matching
preface prefix it is compared against; `V1` iff an HTTP/1 request
parser accepts the buffer as a complete or still-possible request
(the parser, the external `httparse` crate, is abstracted as an
arbitrary total predicate `v1_accepts`); `NotHttp` otherwise. -/
def HttpVersion.new (v1_accepts : Bytes → Bool) (buffer h2_pref : Bytes) :
    HttpVersion :=
  if buffer = h2_pref then .V2
  else if v1_accepts buffer then .V1
  else .NotHttp

/-- The probe of `HttpFilterBuilder::new` (`filter.rs`): with
`peeked_amount` bytes peeked into the 64-byte buffer, classify
`buffer[..peeked_amount]` against
`H2_PREFACE[..min(peeked_amount, H2_PREFACE.len())]`. Slicing is
checked: the result is `none` exactly when a slice would panic. -/
def httpProbe (v1_accepts : Bytes → Bool) (buffer : Bytes)
    (peeked_amount : Nat) : Option HttpVersion :=
  match sliceTo buffer peeked_amount,
    sliceTo h2Preface (min peeked_amount h2Preface.length) with
  | some b, some p => some (HttpVersion.new v1_accepts b p)
  | _, _ => none

/- ### Per-request filter decision
(`steal/http_traffic/hyper_handler.rs`, `HyperHandler::call`) -/

/-- The header-match string built by `HyperHandler::call`:
`format!("{}={}", header_name, header_value)`. -/
def headerMatchString (name value : String) : String :=
  name ++ "=" ++ value

/-- The match decision of `HyperHandler::call`: iterate the request
headers in order; for each, iterate the client filters and return the
first client whose regex matches that header's match string. A regex is
abstracted as a total predicate on strings. -/
def matchedClient (filters : List (ClientId × (String → Bool)))
    (headers : List (String × String)) : Option ClientId :=
  headers.findSome? (fun h =>
    filters.findSome? (fun cf =>
      if cf.2 (headerMatchString h.1 h.2) then some cf.1 else none))

/-- The header-match string as the spec claims it:
`"<name>: <value>"`. -/
def specHeaderMatchString (name value : String) : String :=
  name ++ ": " ++ value

/-- The match decision as the claim words it: form the spec's match
string per header; the first client whose regex matches any header
receives the request. -/
def specMatchedClient (filters : List (ClientId × (String → Bool)))
    (headers : List (String × String)) : Option ClientId :=
  (filters.find? (fun cf =>
    headers.any (fun h => cf.2 (specHeaderMatchString h.1 h.2)))).map Prod.fst

/-- Reference form of the code's decision, stated without nested
`findSome?`: find the earliest header whose code-form match string is
accepted by some filter; the winner is the first filter (in iteration
order) accepting that header's string. -/
def matchedClientRef (filters : List (ClientId × (String → Bool)))
    (headers : List (String × String)) : Option ClientId :=
  match headers.find? (fun h =>
    filters.any (fun cf => cf.2 (headerMatchString h.1 h.2))) with
  | some h =>
    (filters.find? (fun cf => cf.2 (headerMatchString h.1 h.2))).map Prod.fst
  | none => none

/- ### Wire field order (`mirrord/protocol/src/tcp.rs`) -/

/-- A value carried by one encoded field. -/
inductive WireVal
  | s (v : String)
  | n (v : Nat)
  | hs (v : List (String × String))
  | bs (v : Bytes)
  deriving DecidableEq, Repr

/-- The `(field name, value)` sequence a derived `Encode`/`Serialize`
writes for `InternalHttpRequest` — fields in declaration order. -/
def internalHttpRequestWire (r : InternalHttpRequest) : List (String × WireVal) :=
  [("method", .s r.method), ("uri", .s r.uri), ("headers", .hs r.headers),
    ("version", .s r.version), ("body", .bs r.body)]

/-- The flattened field sequence encoded for `HttpRequest`: the nested
`request` first (bincode `with_serde`), then `connection_id`, `port`. -/
def httpRequestWire (r : HttpRequest) : List (String × WireVal) :=
  internalHttpRequestWire r.request ++
    [("connection_id", .n r.connection_id), ("port", .n r.port)]

/-- The flattened field sequence encoded for `HttpResponse`:
`request_id`, `connection_id`, `port`, then the nested
`InternalHttpRequest`. -/
def httpResponseWire (r : HttpResponse) : List (String × WireVal) :=
  [("request_id", .n r.request_id), ("connection_id", .n r.connection_id),
    ("port", .n r.port)] ++ internalHttpRequestWire r.request

/-- The field names the spec claims for `HttpRequest`, in the spec's
order. -/
def specHttpRequestFieldNames : List String :=
  ["request_id", "connection_id", "port", "method", "uri", "version",
    "headers", "body"]

/-- The field names the spec claims for `HttpResponse`, in the spec's
order. -/
def specHttpResponseFieldNames : List String :=
  ["request_id", "connection_id", "port", "status", "version", "headers",
    "body"]

/- ### HTTP response ordering queue

Modelled from the spec: the agent-side mechanism that writes HTTP
responses of one filtered connection back to the intercepted peer (not
in the reviewed tree; only `HttpResponse.request_id`, documented in
`tcp.rs` as making sure "the response is sent in its turn, after
responses to all earlier requests were already sent", and the
per-request oneshot plumbing of `hyper_handler.rs` are). Spec sections
5 and 8: responses are written in ascending `request_id` order; a
response arriving before its predecessors is held, not written, until
they have been written. -/
structure RespQueue where
  next : RequestId
  pending : List (RequestId × Bytes)
  written : List (RequestId × Bytes)
  deriving DecidableEq, Repr

/-- Write out every pending response whose id is the next expected one,
advancing the expectation; `fuel` bounds the iteration (one unit per
write suffices). -/
def flushQ : Nat → RespQueue → RespQueue
  | 0, q => q
  | fuel + 1, q =>
    match q.pending.find? (fun e => decide (e.1 = q.next)) with
    | some e =>
      flushQ fuel
        { next := q.next + 1
          pending := q.pending.filter (fun x => decide (x.1 ≠ q.next))
          written := q.written ++ [e] }
    | none => q

/-- A response arrives at the agent: hold it, then flush whatever has
become writable. -/
def arriveQ (q : RespQueue) (a : RequestId × Bytes) : RespQueue :=
  flushQ (q.pending.length + 1) { q with pending := q.pending ++ [a] }

/-- Process a whole arrival sequence from an empty queue expecting
`init` first. -/
def runQueue (init : RequestId) (arrivals : List (RequestId × Bytes)) :
    RespQueue :=
  arrivals.foldl arriveQ ⟨init, [], []⟩

/-- Rules removed by `close_client` for a port list, as a pure fold. -/
def removeAllRules (t : SafeIpTables) (stealer_port : Port) (ports : List Port) :
    SafeIpTables :=
  ports.foldl (fun acc p => acc.remove_redirect p stealer_port) t

/- ### Helper lemmas -/

theorem lookupA_setA {β : Type} (m : List (Nat × β)) (k : Nat) (v : β)
    (k2 : Nat) :
    lookupA (setA m k v) k2 = if k2 = k then some v else lookupA m k2 := by
  induction m with
  | nil =>
    by_cases h : k2 = k
    · simp [setA, lookupA, h]
    · have h2 : ¬ k = k2 := fun hh => h hh.symm
      simp [setA, lookupA, h, h2]
  | cons e rest ih =>
    by_cases he : e.1 = k
    · by_cases h2 : k2 = k
      · simp [setA, lookupA, he, h2]
      · have h3 : ¬ k = k2 := fun hh => h2 hh.symm
        have h4 : ¬ e.1 = k2 := by rw [he]; exact h3
        simp [setA, lookupA, he, h2, h3, h4]
    · by_cases h2 : e.1 = k2
      · have h3 : ¬ k2 = k := by rw [← h2]; exact fun hh => he hh
        simp [setA, lookupA, he, h2, h3]
      · simp [setA, lookupA, he, h2, ih]

theorem lookupA_removeA {β : Type} (m : List (Nat × β)) (k k2 : Nat) :
    lookupA (removeA m k) k2 = if k2 = k then none else lookupA m k2 := by
  induction m with
  | nil => simp [removeA, lookupA]
  | cons e rest ih =>
    by_cases he : e.1 = k
    · have h1 : removeA (e :: rest) k = removeA rest k := by
        simp [removeA, List.filter_cons, he]
      rw [h1, ih]
      by_cases h2 : k2 = k
      · simp [h2]
      · have h3 : ¬ e.1 = k2 := by rw [he]; exact fun hh => h2 hh.symm
        simp [lookupA, h2, h3]
    · have h1 : removeA (e :: rest) k = e :: removeA rest k := by
        simp [removeA, List.filter_cons, he]
      rw [h1]
      by_cases h2 : e.1 = k2
      · have h3 : ¬ k2 = k := by rw [← h2]; exact fun hh => he hh
        simp [lookupA, h2, h3]
      · simp [lookupA, h2, ih]

theorem lookupA_send (m : List (ClientId × List DaemonTcp)) (c : ClientId)
    (msg : DaemonTcp) (k : ClientId) :
    lookupA (send_message_to_single_client m c msg) k =
      if k = c then (lookupA m k).map (fun l => l ++ [msg])
      else lookupA m k := by
  induction m with
  | nil =>
    by_cases h : k = c <;> simp [send_message_to_single_client, lookupA, h]
  | cons e rest ih =>
    have h1 : send_message_to_single_client (e :: rest) c msg =
        (if e.1 = c then (e.1, e.2 ++ [msg]) else e) ::
          send_message_to_single_client rest c msg := rfl
    rw [h1]
    by_cases he : e.1 = c
    · rw [if_pos he]
      by_cases hk : e.1 = k
      · have h2 : k = c := by rw [← hk]; exact he
        simp [lookupA, hk, h2]
      · simp [lookupA, hk, ih]
    · rw [if_neg he]
      by_cases hk : e.1 = k
      · have h2 : ¬ k = c := by rw [← hk]; exact he
        simp [lookupA, hk, h2]
      · simp [lookupA, hk, ih]

/-- A rejected `port_subscribe` only appends the error reply on the
requesting client's channel; every other component of the state is
syntactically untouched. -/
theorem port_subscribe_rejected (s : StealerState) (c : ClientId) (p : Port)
    (h : s.port_subscriptions.get_topic_subscribers p ≠ []) :
    port_subscribe s c p =
      .ok { s with
            clients := send_message_to_single_client s.clients c
              (.subscribeResult (.err (.portAlreadyStolen p))) } := by
  cases hl : s.port_subscriptions.get_topic_subscribers p with
  | nil => exact absurd hl h
  | cons a rest =>
    unfold port_subscribe
    rw [hl]
    rfl

/-- Source `removeRedirects` never fails once the guard is present, and folds
the removals. -/
theorem removeRedirects_some (t : SafeIpTables) (sp : Port) (l : List Port) :
    removeRedirects (some t) sp l = .ok (some (removeAllRules t sp l)) := by
  induction l generalizing t with
  | nil => rfl
  | cons p rest ih => exact ih (t.remove_redirect p sp)

/-- A subscriber recorded in the index shows up among its port's
subscribers. -/
theorem mem_topic_subscribers (s : Subscriptions) (c : ClientId) (p : Port)
    (h : (p, c) ∈ s.inner) : c ∈ s.get_topic_subscribers p := by
  unfold Subscriptions.get_topic_subscribers
  exact List.mem_map_of_mem Prod.snd (List.mem_filter.mpr ⟨h, by simp⟩)

/- ### Claim theorems C1-C4 -/

/-- Claim C1 (code bug evidence): running the worker on the command
sequence PortSubscribe(client 0, port 80) followed by
ClientClose(client 0) removes the last subscription overall, removes
port 80's redirect rule, yet leaves the iptables guard in place
(`Some`), although the source documents the `iptables` field as "None
when there are no subscribers" and the claim requires the guard to be
dropped when the last subscription is removed. -/
theorem c1_guard_survives_client_close :
    ((run (StealerState.initial 55000)
      [.command ⟨0, .newClient⟩, .command ⟨0, .portSubscribe 80⟩,
        .command ⟨0, .clientClose⟩]).toOption.map (fun s =>
          (s.port_subscriptions.is_empty, s.iptables.isSome,
            s.iptables.map (fun t => t.rulesFor 80)))) =
    some (true, true, some 0) := by rfl

/-- Claim C2 (counterexample): from a fresh worker, client 0 subscribes
to port 80 and then subscribes to port 80 again. The claim says the
second reply is SubscribeResult(Ok(80)); the code replies
SubscribeResult(Err(PortAlreadyStolen(80))). -/
theorem c2_counterexample :
    ((run (StealerState.initial 55000)
      [.command ⟨0, .newClient⟩, .command ⟨0, .portSubscribe 80⟩,
        .command ⟨0, .portSubscribe 80⟩]).toOption.bind
      (fun s => lookupA s.clients 0)) =
    some [.subscribeResult (.ok 80),
      .subscribeResult (.err (.portAlreadyStolen 80))] := by rfl

/-- Claim C2 (amended): a second PortSubscribe(P) by the same client C
that already holds the subscription on P is rejected exactly like a
request from a different client: the reply is
SubscribeResult(Err(PortAlreadyStolen(P))) and nothing changes except
that reply being appended on C's channel. -/
theorem c2_same_client_resubscribe_rejected (s : StealerState)
    (c : ClientId) (p : Port) (h : (p, c) ∈ s.port_subscriptions.inner) :
    port_subscribe s c p =
      .ok { s with
            clients := send_message_to_single_client s.clients c
              (.subscribeResult (.err (.portAlreadyStolen p))) } :=
  port_subscribe_rejected s c p
    (List.ne_nil_of_mem (mem_topic_subscribers s.port_subscriptions c p h))

/-- Concrete state used by the witnesses: client 0 holds port 80 and
owns pending connection 7; client 1 is registered with no
subscription. -/
def witnessState : StealerState :=
  { StealerState.initial 55000 with
    port_subscriptions := ⟨[(80, 0)]⟩
    iptables := some ⟨[(80, 55000)]⟩
    clients := [(0, []), (1, [])]
    write_streams := [(7, [])]
    read_streams := [7]
    client_connections := [(7, 0)] }

/-- Witness for the amended C2 at a concrete state. -/
theorem c2_same_client_resubscribe_rejected_witness :
    port_subscribe witnessState 0 80 =
      .ok { witnessState with
            clients := send_message_to_single_client witnessState.clients 0
              (.subscribeResult (.err (.portAlreadyStolen 80))) } :=
  c2_same_client_resubscribe_rejected witnessState 0 80 (by decide)

/-- Claim C3: a PortSubscribe(P) rejected with PortAlreadyStolen(P)
delivers SubscribeResult(Err(PortAlreadyStolen(P))) on the requesting
client's channel and leaves the stealer state otherwise unchanged: the
subscription index, the iptables guard, the allocator, all stream maps
and every other client's channel are exactly as before. -/
theorem c3_rejected_subscribe_state_unchanged (s : StealerState)
    (c : ClientId) (p : Port) (msgs : List DaemonTcp)
    (hrej : s.port_subscriptions.get_topic_subscribers p ≠ [])
    (hc : lookupA s.clients c = some msgs) :
    ∃ s2, port_subscribe s c p = .ok s2 ∧
      s2.port_subscriptions = s.port_subscriptions ∧
      s2.iptables = s.iptables ∧
      s2.index_allocator = s.index_allocator ∧
      s2.write_streams = s.write_streams ∧
      s2.read_streams = s.read_streams ∧
      s2.client_connections = s.client_connections ∧
      lookupA s2.clients c =
        some (msgs ++ [.subscribeResult (.err (.portAlreadyStolen p))]) ∧
      ∀ k, k ≠ c → lookupA s2.clients k = lookupA s.clients k := by
  refine ⟨_, port_subscribe_rejected s c p hrej, rfl, rfl, rfl, rfl, rfl, rfl,
    ?_, ?_⟩
  · show lookupA (send_message_to_single_client s.clients c
      (.subscribeResult (.err (.portAlreadyStolen p)))) c = _
    rw [lookupA_send, if_pos rfl, hc]
    rfl
  · intro k hk
    show lookupA (send_message_to_single_client s.clients c
      (.subscribeResult (.err (.portAlreadyStolen p)))) k = _
    rw [lookupA_send, if_neg hk]

/-- Witness for C3: client 1 tries to subscribe to port 80, already
held by client 0. -/
theorem c3_rejected_subscribe_state_unchanged_witness :
    ∃ s2, port_subscribe witnessState 1 80 = .ok s2 ∧
      s2.port_subscriptions = witnessState.port_subscriptions ∧
      s2.iptables = witnessState.iptables ∧
      s2.index_allocator = witnessState.index_allocator ∧
      s2.write_streams = witnessState.write_streams ∧
      s2.read_streams = witnessState.read_streams ∧
      s2.client_connections = witnessState.client_connections ∧
      lookupA s2.clients 1 =
        some ([] ++ [.subscribeResult (.err (.portAlreadyStolen 80))]) ∧
      ∀ k, k ≠ 1 → lookupA s2.clients k = lookupA witnessState.clients k :=
  c3_rejected_subscribe_state_unchanged witnessState 1 80 []
    (by decide) (by decide)

/-- Claim C4 (counterexample): client 0 subscribes to port 80, an
intercepted connection arrives and is handed to it, then ClientClose
for client 0 is handled. The claim says the pending connection's read
and write halves are removed; the code leaves the write half, the read
half and the connection-client association all in place (only the
client registration itself is gone). -/
theorem c4_counterexample :
    ((run (StealerState.initial 55000)
      [.command ⟨0, .newClient⟩, .command ⟨0, .portSubscribe 80⟩,
        .accept 7 4321 80, .command ⟨0, .clientClose⟩]).toOption.map
      (fun s => (lookupA s.write_streams 0, s.read_streams,
        lookupA s.client_connections 0, lookupA s.clients 0))) =
    some (some [], [0], some 0, none) := by rfl

/-- Claim C4 (amended): handling ClientClose for client C removes C's
iptables redirect rules (one per subscribed port) and all of C's
subscriptions, and drops C's response sink, leaving other clients'
sinks alone — but it does not close C's pending intercepted
connections: the write-stream map, read-stream map and
connection-client associations are left exactly as they were. -/
theorem c4_close_client_keeps_connections (s : StealerState) (c : ClientId)
    (h : s.port_subscriptions.get_client_topics c = [] ∨
      s.iptables.isSome = true) :
    ∃ s2, close_client s c = .ok s2 ∧
      s2.port_subscriptions = s.port_subscriptions.remove_client c ∧
      s2.iptables = s.iptables.map (fun t =>
        removeAllRules t s.stealer_port
          (s.port_subscriptions.get_client_topics c)) ∧
      lookupA s2.clients c = none ∧
      (∀ k, k ≠ c → lookupA s2.clients k = lookupA s.clients k) ∧
      s2.write_streams = s.write_streams ∧
      s2.read_streams = s.read_streams ∧
      s2.client_connections = s.client_connections := by
  cases hip : s.iptables with
  | some t =>
    have hcc : close_client s c =
        .ok { s with
              iptables := some (removeAllRules t s.stealer_port
                (s.port_subscriptions.get_client_topics c)),
              port_subscriptions := s.port_subscriptions.remove_client c,
              clients := removeA s.clients c } := by
      unfold close_client
      rw [hip, removeRedirects_some]
    refine ⟨_, hcc, rfl, rfl, ?_, ?_, rfl, rfl, rfl⟩
    · show lookupA (removeA s.clients c) c = none
      rw [lookupA_removeA, if_pos rfl]
    · intro k hk
      show lookupA (removeA s.clients c) k = _
      rw [lookupA_removeA, if_neg hk]
  | none =>
    have hports : s.port_subscriptions.get_client_topics c = [] := by
      cases h with
      | inl hh => exact hh
      | inr hh => rw [hip] at hh; simp at hh
    have hcc : close_client s c =
        .ok { s with
              iptables := none,
              port_subscriptions := s.port_subscriptions.remove_client c,
              clients := removeA s.clients c } := by
      unfold close_client
      rw [hip, hports]
      rfl
    refine ⟨_, hcc, rfl, rfl, ?_, ?_, rfl, rfl, rfl⟩
    · show lookupA (removeA s.clients c) c = none
      rw [lookupA_removeA, if_pos rfl]
    · intro k hk
      show lookupA (removeA s.clients c) k = _
      rw [lookupA_removeA, if_neg hk]

/-- Witness for the amended C4 at a concrete state. -/
theorem c4_close_client_keeps_connections_witness :
    ∃ s2, close_client witnessState 0 = .ok s2 ∧
      s2.port_subscriptions = witnessState.port_subscriptions.remove_client 0 ∧
      s2.iptables = witnessState.iptables.map (fun t =>
        removeAllRules t witnessState.stealer_port
          (witnessState.port_subscriptions.get_client_topics 0)) ∧
      lookupA s2.clients 0 = none ∧
      (∀ k, k ≠ 0 → lookupA s2.clients k = lookupA witnessState.clients k) ∧
      s2.write_streams = witnessState.write_streams ∧
      s2.read_streams = witnessState.read_streams ∧
      s2.client_connections = witnessState.client_connections :=
  c4_close_client_keeps_connections witnessState 0 (Or.inr (by decide))

/- ### Claim theorems C6-C10 -/

/-- A `findSome?` whose function is a guarded projection is the
projection of `find?`. -/
theorem findSome?_if_eq_find? {α β : Type} (l : List α) (p : α → Bool)
    (f : α → β) :
    (l.findSome? fun a => if p a then some (f a) else none) =
      (l.find? p).map f := by
  induction l with
  | nil => rfl
  | cons a rest ih =>
    by_cases h : p a
    · simp [List.findSome?_cons, List.find?_cons_of_pos _ h, h]
    · simp [List.findSome?_cons, List.find?_cons_of_neg _ h, h, ih]

/-- Claim C6 (counterexample): with a single registered filter that
accepts exactly the string the claim describes (name, colon, space,
value) and a request carrying that very header, the code's decision
matches nothing — because the code builds the match string with an
equals sign — while a filter written for the code's actual string does
match. -/
theorem c6_counterexample :
    matchedClient [(0, fun str => str = "X: Y")] [("X", "Y")] = none ∧
    specMatchedClient [(0, fun str => str = "X: Y")] [("X", "Y")] = some 0 ∧
    matchedClient [(0, fun str => str = "X=Y")] [("X", "Y")] = some 0 := by
  refine ⟨?_, ?_, ?_⟩ <;> rfl

/-- Claim C6 (amended): the per-request decision tests each client's
regex against a string formed per header as name, equals sign, value
(no colon or space); the request goes, for the earliest header that any
registered regex accepts, to the first client in filter-iteration order
whose regex accepts that header's string. -/
theorem c6_match_decision (filters : List (ClientId × (String → Bool)))
    (headers : List (String × String)) :
    matchedClient filters headers = matchedClientRef filters headers := by
  induction headers with
  | nil => rfl
  | cons h rest ih =>
    unfold matchedClient matchedClientRef
    rw [List.findSome?_cons]
    cases hf : filters.find? (fun cf => cf.2 (headerMatchString h.1 h.2)) with
    | some cf =>
      have hinner : (filters.findSome? fun cf =>
          if cf.2 (headerMatchString h.1 h.2) then some cf.1 else none) =
          some cf.1 := by
        rw [findSome?_if_eq_find? filters _ Prod.fst, hf]
        rfl
      have hpred :=
        List.find?_some
          (p := fun (cf : ClientId × (String → Bool)) =>
            cf.2 (headerMatchString h.1 h.2)) hf
      have hany : filters.any (fun cf => cf.2 (headerMatchString h.1 h.2)) =
          true :=
        List.any_eq_true.mpr ⟨cf, List.mem_of_find?_eq_some hf, hpred⟩
      rw [hinner, List.find?_cons_of_pos _ (by simpa using hany)]
      show some cf.1 = Option.map Prod.fst
        (List.find? (fun (cf : ClientId × (String → Bool)) =>
          cf.2 (headerMatchString h.1 h.2)) filters)
      rw [hf]
      rfl
    | none =>
      have hinner : (filters.findSome? fun cf =>
          if cf.2 (headerMatchString h.1 h.2) then some cf.1 else none) =
          none := by
        rw [findSome?_if_eq_find? filters _ Prod.fst, hf]
        rfl
      have hnone : ∀ x ∈ filters, ¬ x.2 (headerMatchString h.1 h.2) :=
        List.find?_eq_none.mp hf
      have hany : ¬ (filters.any
          (fun cf => cf.2 (headerMatchString h.1 h.2)) = true) := by
        intro hh
        rcases List.any_eq_true.mp hh with ⟨x, hx, hpx⟩
        exact hnone x hx hpx
      rw [hinner, List.find?_cons_of_neg _ (by simpa using hany)]
      exact ih

/-- Claim C7 (counterexample): at a concrete request and response, the
field sequences the wire types actually carry differ from the ones the
claim lists — the encoded request has no `request_id` and nests
method, uri, headers, version, body before `connection_id` and `port`;
the encoded response carries a nested request (method, uri, headers,
version, body) instead of a bare `status`. -/
theorem c7_counterexample :
    ((httpRequestWire
      ⟨⟨"GET", "/", [("host", "local")], "HTTP/1.1", []⟩, 1, 80⟩).map
        Prod.fst ≠ specHttpRequestFieldNames) ∧
    ((httpResponseWire
      ⟨1, 1, 80, ⟨"GET", "/", [("host", "local")], "HTTP/1.1", []⟩⟩).map
        Prod.fst ≠ specHttpResponseFieldNames) := by
  refine ⟨?_, ?_⟩ <;> decide

/-- Claim C7 (amended): for every value of the wire types, HttpRequest
encodes, in order, the nested request's method, uri, headers, version,
body and then connection_id and port (no request_id field), and
HttpResponse encodes request_id, connection_id, port and then a nested
InternalHttpRequest (method, uri, headers, version, body — not a
status). -/
theorem c7_wire_field_order (rq : HttpRequest) (rs : HttpResponse) :
    (httpRequestWire rq).map Prod.fst =
      ["method", "uri", "headers", "version", "body", "connection_id",
        "port"] ∧
    (httpResponseWire rs).map Prod.fst =
      ["request_id", "connection_id", "port", "method", "uri", "headers",
        "version", "body"] :=
  ⟨rfl, rfl⟩

/-- Claim C8 (counterexample): from a fresh worker (no subscriptions),
a connection whose recovered original port is 80 is accepted; the
`UnexpectedConnection` error propagates out of the select loop, so a
command arriving right after it is never served — the worker does not
continue. -/
theorem c8_counterexample :
    run (StealerState.initial 55000)
      [.accept 7 4321 80, .command ⟨0, .newClient⟩] =
    .error (.unexpectedConnection 80) := by rfl

/-- Claim C8 (amended): when the recovered original destination port
has no subscribed client, the accept handler returns
UnexpectedConnection for that port without allocating a connection id
or touching any state, and the error terminates the worker loop: no
subsequent event of the trace is processed. -/
theorem c8_unexpected_connection_terminates (s : StealerState)
    (address source_port p : Nat) (rest : List StealEvent)
    (h : s.port_subscriptions.get_topic_subscribers p = []) :
    incoming_connection s address source_port p =
      .error (.unexpectedConnection p) ∧
    run s (.accept address source_port p :: rest) =
      .error (.unexpectedConnection p) := by
  have h1 : incoming_connection s address source_port p =
      .error (.unexpectedConnection p) := by
    unfold incoming_connection
    rw [h]
    rfl
  refine ⟨h1, ?_⟩
  show (match step s (.accept address source_port p) with
    | .ok s1 => run s1 rest
    | .error err => .error err) = .error (.unexpectedConnection p)
  rw [show step s (.accept address source_port p) =
    incoming_connection s address source_port p from rfl, h1]

/-- Witness for the amended C8: fresh worker, port 80, one pending
command after the accept. -/
theorem c8_unexpected_connection_terminates_witness :
    incoming_connection (StealerState.initial 55000) 7 4321 80 =
      .error (.unexpectedConnection 80) ∧
    run (StealerState.initial 55000)
      [.accept 7 4321 80, .command ⟨0, .portSubscribe 80⟩] =
      .error (.unexpectedConnection 80) :=
  c8_unexpected_connection_terminates (StealerState.initial 55000) 7 4321 80
    [.command ⟨0, .portSubscribe 80⟩] (by decide)

/-- Claim C9: for any peeked amount n with 1 ≤ n ≤ 64 into the 64-byte
buffer, the probe slices the preface at min(n, 14) — always in bounds —
slices the buffer at n — always in bounds — and totally returns one of
the three classifications, for every possible HTTP/1 acceptance
predicate and buffer contents. -/
theorem c9_probe_in_bounds_total (v1_accepts : Bytes → Bool)
    (buffer : Bytes) (n : Nat) (hlen : buffer.length = 64) (_hpos : 1 ≤ n)
    (h64 : n ≤ 64) :
    sliceTo h2Preface (min n h2Preface.length) =
      some (h2Preface.take (min n h2Preface.length)) ∧
    sliceTo buffer n = some (buffer.take n) ∧
    ∃ v, httpProbe v1_accepts buffer n = some v := by
  have hp : sliceTo h2Preface (min n h2Preface.length) =
      some (h2Preface.take (min n h2Preface.length)) := by
    unfold sliceTo
    rw [if_pos (Nat.min_le_right n h2Preface.length)]
  have hb : sliceTo buffer n = some (buffer.take n) := by
    unfold sliceTo
    rw [if_pos (by rw [hlen]; exact h64)]
  refine ⟨hp, hb,
    HttpVersion.new v1_accepts (buffer.take n)
      (h2Preface.take (min n h2Preface.length)), ?_⟩
  unfold httpProbe
  rw [hb, hp]

/-- Witness for C9: a 64-byte zero buffer peeked at 20 bytes. -/
theorem c9_probe_in_bounds_total_witness :
    ∃ v, httpProbe (fun _ => true) (List.replicate 64 0) 20 = some v :=
  (c9_probe_in_bounds_total (fun _ => true) (List.replicate 64 0) 20
    (by decide) (by decide) (by decide)).2.2

/-- Claim C10: a ResponseData command always succeeds and only ever
touches the write half stored under the command's connection id:
subscriptions, clients, iptables, allocator, read halves, associations
and every other write half are unchanged, and when no connection with
that id exists the whole state is unchanged. -/
theorem c10_response_data_frame (s : StealerState) (c : ClientId)
    (td : TcpData) (k : ConnectionId) :
    handle_command s ⟨c, .responseData td⟩ = .ok (forward_data s td) ∧
    (forward_data s td).port_subscriptions = s.port_subscriptions ∧
    (forward_data s td).clients = s.clients ∧
    (forward_data s td).iptables = s.iptables ∧
    (forward_data s td).index_allocator = s.index_allocator ∧
    (forward_data s td).read_streams = s.read_streams ∧
    (forward_data s td).client_connections = s.client_connections ∧
    (k ≠ td.connection_id →
      lookupA (forward_data s td).write_streams k =
        lookupA s.write_streams k) ∧
    (lookupA s.write_streams td.connection_id = none →
      forward_data s td = s) := by
  refine ⟨rfl, ?_⟩
  cases hl : lookupA s.write_streams td.connection_id with
  | some w =>
    have hf : forward_data s td =
        { s with
          write_streams := setA s.write_streams td.connection_id
            (w ++ td.bytes) } := by
      unfold forward_data
      rw [hl]
    rw [hf]
    refine ⟨rfl, rfl, rfl, rfl, rfl, rfl, ?_, ?_⟩
    · intro hk
      show lookupA (setA s.write_streams td.connection_id (w ++ td.bytes)) k =
        lookupA s.write_streams k
      rw [lookupA_setA, if_neg hk]
    · intro hnone
      exact Option.noConfusion hnone
  | none =>
    have hf : forward_data s td = s := by
      unfold forward_data
      rw [hl]
    rw [hf]
    exact ⟨rfl, rfl, rfl, rfl, rfl, rfl, fun _ => rfl, fun _ => rfl⟩

/-- Witness for C10: the fresh worker has no connection 3, so the
command leaves the state untouched, and an unrelated id 5 reads back
unchanged. -/
theorem c10_response_data_frame_witness :
    (lookupA (forward_data (StealerState.initial 55000)
      ⟨3, [1, 2]⟩).write_streams 5 =
      lookupA (StealerState.initial 55000).write_streams 5) ∧
    forward_data (StealerState.initial 55000) ⟨3, [1, 2]⟩ =
      StealerState.initial 55000 :=
  ⟨(c10_response_data_frame (StealerState.initial 55000) 0
      ⟨3, [1, 2]⟩ 5).2.2.2.2.2.2.2.1 (by decide),
    (c10_response_data_frame (StealerState.initial 55000) 0
      ⟨3, [1, 2]⟩ 5).2.2.2.2.2.2.2.2 rfl⟩

/- ### Claim C5: response ordering -/

/-- The ordering invariant of the response queue: the ids written so
far form exactly the contiguous ascending range from the initial
expected id up to (excluding) the next expected id. -/
def QueueInv (init : RequestId) (q : RespQueue) : Prop :=
  init ≤ q.next ∧
    q.written.map Prod.fst = List.range' init (q.next - init)

theorem flushQ_inv (init : RequestId) (fuel : Nat) (q : RespQueue)
    (h : QueueInv init q) : QueueInv init (flushQ fuel q) := by
  induction fuel generalizing q with
  | zero => exact h
  | succ fuel ih =>
    unfold flushQ
    cases hfind : q.pending.find? (fun e => decide (e.1 = q.next)) with
    | none => exact h
    | some e =>
      apply ih
      obtain ⟨h1, h2⟩ := h
      constructor
      · exact Nat.le_succ_of_le h1
      · show (q.written ++ [e]).map Prod.fst =
          List.range' init (q.next + 1 - init)
        have hd := List.find?_some
          (p := fun (e2 : RequestId × Bytes) => decide (e2.1 = q.next)) hfind
        have he : e.1 = q.next := by simpa using hd
        have hsub : q.next + 1 - init = (q.next - init) + 1 :=
          Nat.succ_sub h1
        have hini : init + (q.next - init) = q.next :=
          Nat.add_sub_cancel' h1
        rw [List.map_append, h2, hsub, List.range'_1_concat, hini]
        simp [he]

theorem arriveQ_inv (init : RequestId) (q : RespQueue)
    (a : RequestId × Bytes) (h : QueueInv init q) :
    QueueInv init (arriveQ q a) :=
  flushQ_inv init _ _ h

theorem foldl_arriveQ_inv (init : RequestId)
    (l : List (RequestId × Bytes)) (q : RespQueue) (h : QueueInv init q) :
    QueueInv init (l.foldl arriveQ q) := by
  induction l generalizing q with
  | nil => exact h
  | cons a rest ih => exact ih _ (arriveQ_inv init q a h)

theorem runQueue_inv (init : RequestId)
    (arrivals : List (RequestId × Bytes)) :
    QueueInv init (runQueue init arrivals) :=
  foldl_arriveQ_inv init arrivals _ ⟨Nat.le_refl init, by simp⟩

/-- Claim C5: over any arrival order of responses, the sequence of
request ids written back to the intercepted peer is strictly
ascending; in particular whenever the response for id k+1 has been
written, the response for id k (for k at or past the initial id) has
been written before it — a later response that arrives first is held,
not written, until its predecessor has been written. -/
theorem c5_responses_in_request_id_order (init : RequestId)
    (arrivals : List (RequestId × Bytes)) :
    ((runQueue init arrivals).written.map Prod.fst).Pairwise (· < ·) ∧
    (∀ k, init ≤ k →
      (k + 1) ∈ (runQueue init arrivals).written.map Prod.fst →
      k ∈ (runQueue init arrivals).written.map Prod.fst) := by
  obtain ⟨h1, h2⟩ := runQueue_inv init arrivals
  constructor
  · rw [h2]
    exact List.pairwise_lt_range' init _
  · intro k hk hmem
    rw [h2] at hmem ⊢
    rw [List.mem_range'_1] at hmem ⊢
    obtain ⟨hm1, hm2⟩ := hmem
    exact ⟨hk, Nat.lt_of_succ_lt hm2⟩

/-- Witness for C5: the response for id 2 arrives before the one for
id 1, yet both end up written with 1 before 2. -/
theorem c5_responses_in_request_id_order_witness :
    1 ∈ (runQueue 1 [(2, [10]), (1, [11])]).written.map Prod.fst ∧
    (runQueue 1 [(2, [10]), (1, [11])]).written.map Prod.fst = [1, 2] :=
  ⟨(c5_responses_in_request_id_order 1 [(2, [10]), (1, [11])]).2 1
      (by decide) (by decide),
    by decide⟩

end MirrordSteal
